import Mathlib

/- Shallow embedding of src/src/utils/renderer.js (capture-and-transmission
pipeline): the token budget tracker, the screenshot change-detection gate,
the audio chunk drain loop, the image-send completion handler and the text
message send path.  JavaScript timestamps (Date.now(), milliseconds) are
modelled as Int, audio samples (IEEE doubles) as Rat, pixel channel values
(Uint8ClampedArray entries) as Nat. -/

/-- Kind tag of a token event; the source stores the string 'image' or 'audio'
(renderer.js line 28, parameter `type`). -/
inductive TokKind where
  | image
  | audio
  deriving DecidableEq, Repr

/-- One entry of `tokenTracker.tokens`: `{timestamp, count, type}`
(renderer.js lines 30-34). -/
structure TokenEvent where
  timestamp : Int
  count : Int
  type : TokKind
  deriving DecidableEq, Repr

/-- The mutable `tokenTracker` object state: the `tokens` array and the
`audioStartTime` anchor (renderer.js lines 23-25; `audioStartTime` starts
as null). -/
structure TokenTracker where
  tokens : List TokenEvent
  audioStartTime : Option Int
  deriving DecidableEq, Repr

/-- Initial tracker state (renderer.js lines 24-25) and the state produced by
`tokenTracker.reset()` (lines 106-109). -/
def initialTokenTracker : TokenTracker := ⟨[], none⟩

/-- `cleanOldTokens` (renderer.js lines 75-78): keeps exactly the events whose
`timestamp` is strictly greater than `now - 60 * 1000`. -/
def cleanOldTokens (t : TokenTracker) (now : Int) : TokenTracker :=
  { t with tokens := t.tokens.filter (fun e => decide (now - 60 * 1000 < e.timestamp)) }

/-- `addTokens` (renderer.js lines 28-38): appends `{timestamp: now, count, type}`
to the array, then immediately purges events older than one minute. -/
def addTokens (t : TokenTracker) (now : Int) (count : Int) (type : TokKind) : TokenTracker :=
  cleanOldTokens { t with tokens := t.tokens ++ [⟨now, count, type⟩] } now

/-- `calculateImageTokens` (renderer.js lines 41-53): images at most 384 px in
both dimensions cost 258 tokens; otherwise the image is tiled into 768x768
blocks with ceiling division per axis (`(w + 767) / 768` in Nat arithmetic
equals `Math.ceil(w / 768)` of the source), each tile costing 258. -/
def calculateImageTokens (width height : Nat) : Nat :=
  if width ≤ 384 ∧ height ≤ 384 then
    258
  else
    let tilesX := (width + 767) / 768
    let tilesY := (height + 767) / 768
    let totalTiles := tilesX * tilesY
    totalTiles * 258

/-- `trackAudioTokens` (renderer.js lines 56-72).  The guard
`if (!this.audioStartTime)` is a JavaScript truthiness test: it fires both
when the anchor is null and when it holds the falsy number 0, and in either
case only records `audioStartTime = now` and returns.  Otherwise the call
computes `Math.floor(elapsedSeconds * 32)` — with millisecond timestamps this
is `Int.fdiv ((now - start) * 32) 1000` — and, ONLY when that value is
positive, appends an audio event and moves the anchor to `now`.  When the
floored value is 0 nothing at all changes (the anchor assignment on line 70
sits inside the `if (audioTokens > 0)` branch). -/
def trackAudioTokens (t : TokenTracker) (now : Int) : TokenTracker :=
  match t.audioStartTime with
  | none => { t with audioStartTime := some now }
  | some start =>
    if start = 0 then
      { t with audioStartTime := some now }
    else
      let audioTokens : Int := Int.fdiv ((now - start) * 32) 1000
      if 0 < audioTokens then
        { addTokens t now audioTokens TokKind.audio with audioStartTime := some now }
      else
        t

/-- `getTokensInLastMinute` (renderer.js lines 81-84): purge, then reduce the
remaining counts with `total + token.count` starting from 0. -/
def getTokensInLastMinute (t : TokenTracker) (now : Int) : Int :=
  (cleanOldTokens t now).tokens.foldl (fun total e => total + e.count) 0

/-- Rate-limit configuration read from localStorage inside `shouldThrottle`
(renderer.js lines 89-95): `throttleTokens`, `maxTokensPerMin`,
`throttleAtPercent`; modelled as injected values. -/
structure ThrottleConfig where
  throttleEnabled : Bool
  maxTokensPerMin : Int
  throttleAtPercent : Int
  deriving DecidableEq, Repr

/-- `shouldThrottle` (renderer.js lines 87-103) including its state effect:
when throttling is enabled it calls `getTokensInLastMinute`, whose internal
`cleanOldTokens` purges the array; the returned pair is (decision, tracker
after the call).  The threshold is `Math.floor(max * percent / 100)`. -/
def shouldThrottleRun (t : TokenTracker) (now : Int) (cfg : ThrottleConfig) :
    Bool × TokenTracker :=
  if cfg.throttleEnabled = false then
    (false, t)
  else
    let t' := cleanOldTokens t now
    let currentTokens := t'.tokens.foldl (fun total e => total + e.count) 0
    let throttleThreshold := Int.fdiv (cfg.maxTokensPerMin * cfg.throttleAtPercent) 100
    (decide (throttleThreshold ≤ currentTokens), t')

/-- Decision component of `shouldThrottle`. -/
def shouldThrottle (t : TokenTracker) (now : Int) (cfg : ThrottleConfig) : Bool :=
  (shouldThrottleRun t now cfg).1

/-- One RGBA sample of the down-scaled diff canvas
(`diffContext.getImageData(...).data`, renderer.js lines 427-432); the alpha
channel is carried but never compared. -/
structure Px where
  r : Nat
  g : Nat
  b : Nat
  a : Nat
  deriving DecidableEq, Repr

/-- Absolute difference of two channel values, `Math.abs(x - y)` on 0..255
clamped bytes. -/
def diffAbs (x y : Nat) : Nat := max x y - min x y

/-- Per-pixel change test (renderer.js lines 441-447): a pixel counts as
changed when any of the three colour channels differs by more than 10. -/
def pxChanged (p q : Px) : Bool :=
  decide (10 < diffAbs p.r q.r) || decide (10 < diffAbs p.g q.g) ||
    decide (10 < diffAbs p.b q.b)

/-- Number of changed pixels between the current down-scaled frame and the
last sent one (the loop on renderer.js lines 440-449). -/
def changedPixels (cur prev : List Px) : Nat :=
  (List.zipWith pxChanged cur prev).count true

/-- `DIFF_CANVAS_WIDTH` (renderer.js line 116). -/
def DIFF_CANVAS_WIDTH : Nat := 160

/-- `DIFF_CANVAS_HEIGHT` (renderer.js line 117). -/
def DIFF_CANVAS_HEIGHT : Nat := 90

/-- `totalPixels` (renderer.js line 437). -/
def totalPixels : Nat := DIFF_CANVAS_WIDTH * DIFF_CANVAS_HEIGHT

/-- `SCREEN_CHANGE_THRESHOLD` (renderer.js line 119), the 5 percent ratio. -/
def SCREEN_CHANGE_THRESHOLD : ℚ := 5 / 100

/-- `changeRatio` of renderer.js line 451, `changedPixels / totalPixels`, as an
exact rational (for counts in 0..14400 the double-precision comparison of the
source against 0.05 agrees with the exact rational comparison). -/
def changeFraction (cur prev : List Px) : ℚ :=
  (changedPixels cur prev : ℚ) / (totalPixels : ℚ)

/-- `MIN_SEND_INTERVAL_MS` (renderer.js line 126). -/
def MIN_SEND_INTERVAL_MS : Int := 1500

/-- The change-detection gate of an automated capture (renderer.js lines
435-457) as a function of the stored baseline: with no baseline the frame
passes; with a baseline it passes exactly when the change ratio is NOT below
the 5 percent threshold (line 452 returns early when it is). -/
def shouldTransmitFrame (lastSent : Option (List Px)) (cur : List Px) : Bool :=
  match lastSent with
  | none => true
  | some prev => !(decide (changeFraction cur prev < SCREEN_CHANGE_THRESHOLD))

/-- Module-level mutable state touched by `captureScreenshot` and its send
callback: `lastSentDiffData` (line 123, initially null),
`lastScreenshotSentTime` (line 127, initially 0) and the `tokenTracker`. -/
structure SessionState where
  lastSentDiffData : Option (List Px)
  lastScreenshotSentTime : Int
  tokenTracker : TokenTracker
  deriving DecidableEq, Repr

/-- State at renderer load time. -/
def initialSessionState : SessionState := ⟨none, 0, initialTokenTracker⟩

/-- How one `captureScreenshot(quality, isManual)` invocation ends. -/
inductive CaptureOutcome where
  | noStream
  | skipThrottle
  | notReady
  | skipDiff
  | skipMinInterval
  | send
  deriving DecidableEq, Repr

/-- `captureScreenshot` (renderer.js lines 355-525) up to the point where the
frame is handed to JPEG encoding and `send-image-content`; the asynchronous
completion is `imageSendResult` below.  Mirrors the source order: missing
stream, throttle gate (automated only, with its tracker purge), video
readiness, then for automated captures the diff section — whose baseline
comparison runs only when `lastSentDiffData` is non-null, and which commits
the new baseline (line 467) only inside that non-null branch after both the
ratio and the minimum-interval gate pass. -/
def captureScreenshot (st : SessionState) (cfg : ThrottleConfig) (now : Int)
    (hasStream videoReady : Bool) (frame : List Px) (isManual : Bool) :
    CaptureOutcome × SessionState :=
  if !hasStream then
    (CaptureOutcome.noStream, st)
  else
    let thr := if isManual then (false, st.tokenTracker)
               else shouldThrottleRun st.tokenTracker now cfg
    let st1 : SessionState := { st with tokenTracker := thr.2 }
    if thr.1 then
      (CaptureOutcome.skipThrottle, st1)
    else if !videoReady then
      (CaptureOutcome.notReady, st1)
    else if isManual then
      (CaptureOutcome.send, st1)
    else
      match st1.lastSentDiffData with
      | none => (CaptureOutcome.send, st1)
      | some prev =>
        if changeFraction frame prev < SCREEN_CHANGE_THRESHOLD then
          (CaptureOutcome.skipDiff, st1)
        else if now - st1.lastScreenshotSentTime < MIN_SEND_INTERVAL_MS then
          (CaptureOutcome.skipMinInterval, st1)
        else
          (CaptureOutcome.send, { st1 with lastSentDiffData := some frame })

/-- Completion handler of the `send-image-content` invocation (renderer.js
lines 504-518): on `result.success` it adds `calculateImageTokens(w, h)`
image tokens and records the send time; on failure it only logs, mutating
nothing. -/
def imageSendResult (st : SessionState) (now : Int) (w h : Nat) (success : Bool) :
    SessionState :=
  if success then
    { st with
        tokenTracker := addTokens st.tokenTracker now (calculateImageTokens w h) TokKind.image,
        lastScreenshotSentTime := now }
  else
    st

/-- An event of a capture session: either a `captureScreenshot` invocation or
the completion of an image send. -/
inductive SessionEvent where
  | capture (cfg : ThrottleConfig) (now : Int) (hasStream videoReady : Bool)
      (frame : List Px) (isManual : Bool)
  | sendResult (now : Int) (w h : Nat) (success : Bool)

/-- One session event applied to the module state; capture events also report
their outcome. -/
def sessionStep (st : SessionState) (e : SessionEvent) :
    SessionState × Option CaptureOutcome :=
  match e with
  | SessionEvent.capture cfg now hasStream videoReady frame isManual =>
    let r := captureScreenshot st cfg now hasStream videoReady frame isManual
    (r.2, some r.1)
  | SessionEvent.sendResult now w h success =>
    (imageSendResult st now w h success, none)

/-- A whole session: fold the events, collecting the capture outcomes. -/
def runSession (st : SessionState) (evs : List SessionEvent) :
    SessionState × List CaptureOutcome :=
  match evs with
  | [] => (st, [])
  | e :: rest =>
    let r := sessionStep st e
    let r2 := runSession r.1 rest
    (r2.1, r.2.toList ++ r2.2)

/-- Truncation toward zero, the conversion applied when a JavaScript number is
stored into an `Int16Array` slot (all stored values here lie in the int16
range, so the modular wrap of ToInt16 is the identity). -/
def jsTrunc (q : ℚ) : Int :=
  if q < 0 then ⌈q⌉ else ⌊q⌋

/-- Loop body of `convertFloat32ToInt16` (renderer.js lines 140-141): clamp
one sample to [-1, 1] with `Math.max(-1, Math.min(1, v))`, then scale negative
samples by 0x8000 = 32768 and non-negative ones by 0x7fff = 32767. -/
def convertSample (v : ℚ) : Int :=
  let s := max (-1 : ℚ) (min 1 v)
  if s < 0 then jsTrunc (s * 32768) else jsTrunc (s * 32767)

/-- `convertFloat32ToInt16` (renderer.js lines 136-144): elementwise sample
conversion, one int16 slot per input sample. -/
def convertFloat32ToInt16 (float32Array : List ℚ) : List Int :=
  float32Array.map convertSample

/-- `SAMPLE_RATE` (renderer.js line 10). -/
def SAMPLE_RATE : Nat := 24000

/-- `samplesPerChunk = SAMPLE_RATE * AUDIO_CHUNK_DURATION` (renderer.js lines
299 and 332); the double product `24000 * 0.1` evaluates to exactly 2400. -/
def samplesPerChunk : Nat := 2400

/-- The chunk drain loop of `onaudioprocess` (renderer.js lines 306-315 and
339-348): while the backlog holds at least `samplesPerChunk` samples, splice
exactly `samplesPerChunk` off the front, one emitted chunk per splice. -/
def drainChunks (buf : List ℚ) : List (List ℚ) × List ℚ :=
  if h : samplesPerChunk ≤ buf.length then
    let r := drainChunks (buf.drop samplesPerChunk)
    (buf.take samplesPerChunk :: r.1, r.2)
  else
    ([], buf)
termination_by buf.length
decreasing_by
  have hpos : 0 < samplesPerChunk := by norm_num [samplesPerChunk]
  simp only [List.length_drop]
  omega

/-- One `onaudioprocess` callback (renderer.js lines 301-316): push the input
frame onto the backlog, then drain; returns (chunks removed in order, backlog
left behind). -/
def onAudioProcess (audioBuffer inputData : List ℚ) : List (List ℚ) × List ℚ :=
  drainChunks (audioBuffer ++ inputData)

/-- The payloads handed to `send-audio-content`, one per drained chunk, after
the `convertFloat32ToInt16` conversion step (the base64 text encoding that
follows is a per-chunk re-serialization and does not change the number or
order of emissions). -/
def emittedChunks (audioBuffer inputData : List ℚ) : List (List Int) :=
  (onAudioProcess audioBuffer inputData).1.map convertFloat32ToInt16

/-- The whitespace class of JavaScript `String.prototype.trim`: tab through
carriage return, space, NBSP, the Unicode space separators, line/paragraph
separators and the BOM. -/
def jsIsWhitespace (c : Char) : Bool :=
  let n := c.toNat
  n == 9 || n == 10 || n == 11 || n == 12 || n == 13 || n == 32 || n == 160 ||
    n == 0x1680 || (decide (0x2000 ≤ n) && decide (n ≤ 0x200A)) || n == 0x2028 ||
    n == 0x2029 || n == 0x202F || n == 0x205F || n == 0x3000 || n == 0xFEFF

/-- Character-list form of `trim`: drop whitespace from both ends. -/
def trimChars (l : List Char) : List Char :=
  ((l.dropWhile jsIsWhitespace).reverse.dropWhile jsIsWhitespace).reverse

/-- `text.trim()` as used on renderer.js line 582. -/
def jsTrim (s : String) : String :=
  String.mk (trimChars s.data)

/-- Observable result of `sendTextMessage`: the `{success, error}` shape it
returns plus whether the `send-text-message` invocation was made at all. -/
structure SendTextResult where
  success : Bool
  error : Option String
  networkInvoked : Bool
  deriving DecidableEq, Repr

/-- `sendTextMessage` (renderer.js lines 581-599): empty or whitespace-only
text (`!text || text.trim().length === 0`; the empty string is falsy and also
trims to length 0) is rejected locally with `{success: false, error: 'Empty
message'}` and no invocation; otherwise the collaborator is invoked and its
result returned. -/
def sendTextMessage (text : String) (linkSuccess : Bool) (linkError : Option String) :
    SendTextResult :=
  if (jsTrim text).length = 0 then
    ⟨false, some ("Empty message"), false⟩
  else
    ⟨linkSuccess, linkError, true⟩

/-- Folding `total + e.count` over a list equals the initial value plus the sum
of the counts. -/
lemma foldl_add_count (l : List TokenEvent) (init : Int) :
    l.foldl (fun total e => total + e.count) init = init + (l.map TokenEvent.count).sum := by
  induction l generalizing init with
  | nil => simp
  | cons e rest ih => simp [List.foldl_cons, ih, add_assoc]

/-- Nat ceiling division by 768 agrees with the rational ceiling
`Math.ceil(w / 768)` of the source. -/
lemma natCeilDiv_eq_ceil (w : Nat) :
    (((w + 767) / 768 : Nat) : Int) = ⌈(w : ℚ) / 768⌉ := by
  have hdm := Nat.div_add_mod (w + 767) 768
  have hlt : (w + 767) % 768 < 768 := Nat.mod_lt _ (by norm_num)
  set q := (w + 767) / 768 with hq
  have h1 : w ≤ 768 * q := by omega
  have h2 : 768 * q ≤ w + 767 := by omega
  have h1q : (w : ℚ) ≤ 768 * (q : ℚ) := by exact_mod_cast h1
  have h2q : 768 * (q : ℚ) ≤ (w : ℚ) + 767 := by exact_mod_cast h2
  rw [eq_comm, Int.ceil_eq_iff]
  constructor
  · rw [lt_div_iff₀ (by norm_num : (0:ℚ) < 768)]
    push_cast
    linarith
  · rw [div_le_iff₀ (by norm_num : (0:ℚ) < 768)]
    push_cast
    linarith

/-- C4: for positive integer dimensions, `calculateImageTokens` returns 258
when both dimensions are at most 384 and otherwise
`ceil(w/768) * ceil(h/768) * 258`; in particular (800,800) costs 1032,
(1,1) costs 258 and (768,1536) costs 516. -/
theorem calculateImageTokens_spec (w h : Nat) (hw : 0 < w) (hh : 0 < h) :
    (w ≤ 384 → h ≤ 384 → calculateImageTokens w h = 258)
    ∧ (¬(w ≤ 384 ∧ h ≤ 384) →
        (calculateImageTokens w h : Int) = ⌈(w : ℚ) / 768⌉ * ⌈(h : ℚ) / 768⌉ * 258)
    ∧ calculateImageTokens 800 800 = 1032
    ∧ calculateImageTokens 1 1 = 258
    ∧ calculateImageTokens 768 1536 = 516 := by
  refine ⟨?_, ?_, by decide, by decide, by decide⟩
  · intro h1 h2
    simp [calculateImageTokens, h1, h2]
  · intro hne
    simp only [calculateImageTokens, if_neg hne]
    rw [Nat.cast_mul, Nat.cast_mul, natCeilDiv_eq_ceil, natCeilDiv_eq_ceil]
    norm_num

/-- Witness for C4 at concrete inputs. -/
theorem calculateImageTokens_spec_witness :
    calculateImageTokens 800 800 = 1032 ∧ calculateImageTokens 1 1 = 258 :=
  ⟨(calculateImageTokens_spec 800 800 (by norm_num) (by norm_num)).2.2.1,
   (calculateImageTokens_spec 1 1 (by norm_num) (by norm_num)).2.2.2.1⟩

/-- C5: the token window slides over 60 seconds — an event survives the purge
exactly when it is younger than 60s at query time, `getTokensInLastMinute`
sums exactly the surviving counts, and a 500-token event stamped at t=0 is
counted at t=59s and gone at t=61s. -/
theorem tokenWindow_spec :
    (∀ (t : TokenTracker) (now : Int) (e : TokenEvent),
        e ∈ (cleanOldTokens t now).tokens ↔ e ∈ t.tokens ∧ now - 60 * 1000 < e.timestamp)
    ∧ (∀ (t : TokenTracker) (now : Int),
        getTokensInLastMinute t now
          = ((t.tokens.filter (fun e => decide (now - 60 * 1000 < e.timestamp))).map
              TokenEvent.count).sum)
    ∧ getTokensInLastMinute (addTokens initialTokenTracker 0 500 TokKind.image) 59000 = 500
    ∧ getTokensInLastMinute (addTokens initialTokenTracker 0 500 TokKind.image) 61000 = 0 := by
  refine ⟨?_, ?_, by decide, by decide⟩
  · intro t now e
    simp [cleanOldTokens, List.mem_filter]
  · intro t now
    simp [getTokensInLastMinute, cleanOldTokens, foldl_add_count]

/-- C6: `shouldThrottle` is false whenever throttling is disabled, and when
enabled it is true exactly when the window sum reaches
`floor(maxTokensPerMin * throttleAtPercent / 100)`; with max 1000, percent 75
and 800 accumulated tokens it throttles. -/
theorem shouldThrottle_spec :
    (∀ (t : TokenTracker) (now : Int) (cfg : ThrottleConfig),
        cfg.throttleEnabled = false → shouldThrottle t now cfg = false)
    ∧ (∀ (t : TokenTracker) (now : Int) (cfg : ThrottleConfig),
        cfg.throttleEnabled = true →
          (shouldThrottle t now cfg = true ↔
            Int.fdiv (cfg.maxTokensPerMin * cfg.throttleAtPercent) 100
              ≤ getTokensInLastMinute t now))
    ∧ shouldThrottle (addTokens initialTokenTracker 0 800 TokKind.image) 0 ⟨true, 1000, 75⟩
        = true := by
  refine ⟨?_, ?_, by decide⟩
  · intro t now cfg hcfg
    simp [shouldThrottle, shouldThrottleRun, hcfg]
  · intro t now cfg hcfg
    simp [shouldThrottle, shouldThrottleRun, hcfg, getTokensInLastMinute]

/-- Witness for C6: both configuration branches exercised at concrete state. -/
theorem shouldThrottle_spec_witness :
    shouldThrottle initialTokenTracker 0 ⟨false, 1000, 75⟩ = false
    ∧ (shouldThrottle (addTokens initialTokenTracker 0 800 TokKind.image) 0 ⟨true, 1000, 75⟩
          = true ↔
        Int.fdiv (1000 * 75) 100
          ≤ getTokensInLastMinute (addTokens initialTokenTracker 0 800 TokKind.image) 0) :=
  ⟨shouldThrottle_spec.1 _ 0 _ rfl, shouldThrottle_spec.2.1 _ 0 _ rfl⟩

/-- C3 counterexample: with the window anchored at the (truthy) timestamp
1000ms and a call at now = 1010ms, `floor(0.01 * 32) = 0` tokens accrue, and
— contrary to the claim that the window start is reset to the current time
regardless — the anchor stays at 1000. -/
theorem trackAudioTokens_no_reset_counterexample :
    (trackAudioTokens ⟨[], some 1000⟩ 1010).audioStartTime = some 1000
    ∧ (trackAudioTokens ⟨[], some 1000⟩ 1010).audioStartTime ≠ some 1010 := by
  constructor <;> decide

/-- C3 amended: on calls after the first — the anchor holding a nonzero
timestamp, as `Date.now()` always returns (anchor 0 would be falsy and
re-arm the first-call branch) — with tok = floor(elapsed * 32), an audio
event with count tok is emitted and the window anchor moves to `now` exactly
when tok is positive; when tok is 0 (or negative) the tracker is left
completely unchanged, so sub-token time is carried over, not dropped. -/
theorem trackAudioTokens_spec (t : TokenTracker) (start now : Int)
    (h : t.audioStartTime = some start) (hnz : start ≠ 0) :
    (0 < Int.fdiv ((now - start) * 32) 1000 →
        trackAudioTokens t now
          = { addTokens t now (Int.fdiv ((now - start) * 32) 1000) TokKind.audio with
                audioStartTime := some now })
    ∧ (Int.fdiv ((now - start) * 32) 1000 ≤ 0 → trackAudioTokens t now = t) := by
  constructor
  · intro hx
    simp [trackAudioTokens, h, hnz, hx]
  · intro hx
    simp [trackAudioTokens, h, hnz, if_neg (not_lt.mpr hx)]

/-- Witness for C3's amended theorem: anchored at 1000ms, a call two seconds
later accrues 64 tokens and moves the anchor. -/
theorem trackAudioTokens_spec_witness :
    (trackAudioTokens ⟨[], some 1000⟩ 3000).audioStartTime = some 3000 := by
  have h := (trackAudioTokens_spec ⟨[], some 1000⟩ 1000 3000 rfl (by decide)).1 (by decide)
  rw [h]

/-- A rational below an integer bounds its floor below that integer. -/
lemma floorLeOfLe {q : ℚ} {z : Int} (h : q ≤ (z : ℚ)) : ⌊q⌋ ≤ z := by
  exact_mod_cast le_trans (Int.floor_le q) h

/-- An integer below a rational bounds its floor from below. -/
lemma leFloorOfLe {z : Int} {q : ℚ} (h : (z : ℚ) ≤ q) : z ≤ ⌊q⌋ :=
  Int.le_floor.mpr h

/-- A rational below an integer bounds its ceiling above. -/
lemma ceilLeOfLe {q : ℚ} {z : Int} (h : q ≤ (z : ℚ)) : ⌈q⌉ ≤ z :=
  Int.ceil_le.mpr h

/-- An integer below a rational bounds its ceiling from below. -/
lemma leCeilOfLe {z : Int} {q : ℚ} (h : (z : ℚ) ≤ q) : z ≤ ⌈q⌉ := by
  exact_mod_cast le_trans h (Int.le_ceil q)

/-- Every converted sample lands in the int16 range. -/
lemma convertSample_bounds (x : ℚ) :
    -32768 ≤ convertSample x ∧ convertSample x ≤ 32767 := by
  have hs1 : (-1 : ℚ) ≤ max (-1 : ℚ) (min 1 x) := le_max_left _ _
  have hs2 : max (-1 : ℚ) (min 1 x) ≤ 1 := max_le (by norm_num) (min_le_left _ _)
  simp only [convertSample]
  set s := max (-1 : ℚ) (min 1 x) with hs
  split
  · rename_i hneg
    have hq : s * 32768 < 0 := mul_neg_of_neg_of_pos hneg (by norm_num)
    simp only [jsTrunc, if_pos hq]
    constructor
    · exact leCeilOfLe (by push_cast; nlinarith)
    · exact ceilLeOfLe (by push_cast; nlinarith)
  · rename_i hpos
    have h0 : (0 : ℚ) ≤ s := not_lt.mp hpos
    have hq : ¬ (s * 32767 < 0) := not_lt.mpr (mul_nonneg h0 (by norm_num))
    simp only [jsTrunc, if_neg hq]
    constructor
    · exact leFloorOfLe (by push_cast; nlinarith)
    · exact floorLeOfLe (by push_cast; nlinarith)

/-- C7: `convertFloat32ToInt16` converts every sample (malformed input is
clamped, never rejected — output length always equals input length), each
output is a valid int16, any sample at or above 1 maps to 32767, any sample
at or below -1 maps to -32768, and on [1, -1, 1.5, 0] it produces
[32767, -32768, 32767, 0]. -/
theorem convertFloat32ToInt16_spec :
    (∀ xs : List ℚ, (convertFloat32ToInt16 xs).length = xs.length)
    ∧ (∀ xs : List ℚ,
        convertFloat32ToInt16 xs = xs.map (fun v =>
          if v < 0 then jsTrunc (max (-1 : ℚ) v * 32768)
          else jsTrunc (min 1 v * 32767)))
    ∧ (∀ (xs : List ℚ) (y : Int),
        y ∈ convertFloat32ToInt16 xs → -32768 ≤ y ∧ y ≤ 32767)
    ∧ (∀ x : ℚ, 1 ≤ x → convertFloat32ToInt16 [x] = [32767])
    ∧ (∀ x : ℚ, x ≤ -1 → convertFloat32ToInt16 [x] = [-32768])
    ∧ convertFloat32ToInt16 [1, -1, 3/2, 0] = [32767, -32768, 32767, 0] := by
  refine ⟨?_, ?_, ?_, ?_, ?_, ?_⟩
  · intro xs
    simp [convertFloat32ToInt16]
  · intro xs
    simp only [convertFloat32ToInt16]
    refine List.map_congr_left (fun v _ => ?_)
    simp only [convertSample]
    by_cases hv : v < 0
    · have hmin : min (1 : ℚ) v = v := min_eq_right (le_of_lt (lt_trans hv (by norm_num)))
      have hneg : max (-1 : ℚ) v < 0 := max_lt (by norm_num) hv
      rw [hmin, if_pos hv, if_pos hneg]
    · have h0 : (0 : ℚ) ≤ v := not_lt.mp hv
      have h0m : (0 : ℚ) ≤ min 1 v := le_min (by norm_num) h0
      have hmax : max (-1 : ℚ) (min 1 v) = min 1 v :=
        max_eq_right (le_trans (by norm_num) h0m)
      rw [hmax, if_neg hv, if_neg (not_lt.mpr h0m)]
  · intro xs y hy
    simp only [convertFloat32ToInt16, List.mem_map] at hy
    obtain ⟨x, _, rfl⟩ := hy
    exact convertSample_bounds x
  · intro x hx
    have h1 : min (1 : ℚ) x = 1 := min_eq_left hx
    norm_num [convertFloat32ToInt16, convertSample, jsTrunc, h1]
  · intro x hx
    have h1 : min (1 : ℚ) x = x := min_eq_right (le_trans hx (by norm_num))
    have h2 : max (-1 : ℚ) x = -1 := max_eq_left hx
    norm_num [convertFloat32ToInt16, convertSample, jsTrunc, h1, h2, Int.ceil_eq_iff]
  · norm_num [convertFloat32ToInt16, convertSample, jsTrunc, Int.ceil_eq_iff]

/-- Witness for C7: concrete in-range, clamped-high, clamped-low samples. -/
theorem convertFloat32ToInt16_spec_witness :
    convertFloat32ToInt16 [(2 : ℚ)] = [32767]
    ∧ convertFloat32ToInt16 [(-3 : ℚ)] = [-32768] :=
  ⟨convertFloat32ToInt16_spec.2.2.2.1 2 (by norm_num),
   convertFloat32ToInt16_spec.2.2.2.2.1 (-3) (by norm_num)⟩

/-- A frame compared against itself has no changed pixels. -/
lemma changedPixels_self (f : List Px) : changedPixels f f = 0 := by
  simp [changedPixels, List.zipWith_same, pxChanged, diffAbs, List.count_eq_zero]

/-- C1: the change gate of automated captures — with no stored fingerprint the
frame always passes; a frame identical to the stored fingerprint never
passes; and against a stored fingerprint the frame passes exactly when at
least 720 pixels (5 percent of the 160x90 = 14400 grid) differ by more than
10 in some RGB channel. -/
theorem frameDiff_shouldTransmit_spec :
    (∀ cur : List Px, shouldTransmitFrame none cur = true)
    ∧ (∀ f : List Px, shouldTransmitFrame (some f) f = false)
    ∧ (∀ prev cur : List Px,
        shouldTransmitFrame (some prev) cur = true ↔ 720 ≤ changedPixels cur prev) := by
  have htot : ((totalPixels : ℚ)) = 14400 := by
    norm_num [totalPixels, DIFF_CANVAS_WIDTH, DIFF_CANVAS_HEIGHT]
  have hchar : ∀ prev cur : List Px,
      shouldTransmitFrame (some prev) cur = true ↔ 720 ≤ changedPixels cur prev := by
    intro prev cur
    simp only [shouldTransmitFrame, Bool.not_eq_true', decide_eq_false_iff_not, not_lt,
      changeFraction, SCREEN_CHANGE_THRESHOLD, htot]
    rw [le_div_iff₀ (by norm_num : (0:ℚ) < 14400)]
    norm_num
  refine ⟨fun cur => rfl, ?_, hchar⟩
  intro f
  cases hb : shouldTransmitFrame (some f) f
  · rfl
  · have := (hchar f f).mp hb
    rw [changedPixels_self] at this
    omega

/-- Full characterisation of the drain loop: chunk count is the backlog length
divided by `samplesPerChunk`, the residue is the remainder, every chunk has
exactly `samplesPerChunk` samples, and chunks plus residue reassemble the
backlog in order. -/
lemma drainChunks_spec (buf : List ℚ) :
    (drainChunks buf).1.length = buf.length / samplesPerChunk
    ∧ (drainChunks buf).2.length = buf.length % samplesPerChunk
    ∧ (drainChunks buf).1.all (fun c => c.length == samplesPerChunk) = true
    ∧ (drainChunks buf).1.join ++ (drainChunks buf).2 = buf := by
  induction buf using drainChunks.induct with
  | case1 buf hge ih =>
    obtain ⟨ih1, ih2, ih3, ih4⟩ := ih
    rw [drainChunks, dif_pos hge]
    refine ⟨?_, ?_, ?_, ?_⟩
    · simp only [List.length_cons, ih1, List.length_drop]
      simp only [samplesPerChunk] at hge ⊢
      omega
    · simp only [ih2, List.length_drop]
      simp only [samplesPerChunk] at hge ⊢
      omega
    · simp [ih3, List.length_take, Nat.min_eq_left hge]
    · simp only [List.join_cons]
      rw [List.append_assoc, ih4, List.take_append_drop]
  | case2 buf hlt =>
    rw [drainChunks, dif_neg hlt]
    have hsmall : buf.length < samplesPerChunk := by omega
    exact ⟨by simp [Nat.div_eq_of_lt hsmall], by simp [Nat.mod_eq_of_lt hsmall], by simp,
      by simp⟩

/-- C8: each `onaudioprocess` callback drains the backlog chunk by chunk — it
emits exactly `(backlog + input) / 2400` chunks (one per removal, none
skipped or merged: every chunk has exactly 2400 samples and their
concatenation followed by the residue is the whole buffer in order), leaves
fewer than 2400 samples behind, and the conversion step emits one payload per
chunk.  Feeding 2400 samples into an empty backlog yields one chunk and an
empty backlog; feeding 5000 yields two chunks and a 200-sample backlog. -/
theorem audioChunker_spec :
    (∀ audioBuffer inputData : List ℚ,
      (onAudioProcess audioBuffer inputData).1.length
          = (audioBuffer.length + inputData.length) / samplesPerChunk
        ∧ (onAudioProcess audioBuffer inputData).2.length
          = (audioBuffer.length + inputData.length) % samplesPerChunk
        ∧ (onAudioProcess audioBuffer inputData).2.length < samplesPerChunk
        ∧ (onAudioProcess audioBuffer inputData).1.all
            (fun c => c.length == samplesPerChunk) = true
        ∧ (onAudioProcess audioBuffer inputData).1.join
            ++ (onAudioProcess audioBuffer inputData).2 = audioBuffer ++ inputData
        ∧ (emittedChunks audioBuffer inputData).length
          = (onAudioProcess audioBuffer inputData).1.length)
    ∧ (onAudioProcess [] (List.replicate 2400 (0:ℚ))).1.length = 1
    ∧ (onAudioProcess [] (List.replicate 2400 (0:ℚ))).2 = []
    ∧ (onAudioProcess [] (List.replicate 5000 (0:ℚ))).1.length = 2
    ∧ (onAudioProcess [] (List.replicate 5000 (0:ℚ))).2.length = 200 := by
  have gen : ∀ audioBuffer inputData : List ℚ,
      (onAudioProcess audioBuffer inputData).1.length
          = (audioBuffer.length + inputData.length) / samplesPerChunk
        ∧ (onAudioProcess audioBuffer inputData).2.length
          = (audioBuffer.length + inputData.length) % samplesPerChunk
        ∧ (onAudioProcess audioBuffer inputData).2.length < samplesPerChunk
        ∧ (onAudioProcess audioBuffer inputData).1.all
            (fun c => c.length == samplesPerChunk) = true
        ∧ (onAudioProcess audioBuffer inputData).1.join
            ++ (onAudioProcess audioBuffer inputData).2 = audioBuffer ++ inputData
        ∧ (emittedChunks audioBuffer inputData).length
          = (onAudioProcess audioBuffer inputData).1.length := by
    intro audioBuffer inputData
    simp only [onAudioProcess, emittedChunks]
    have h := drainChunks_spec (audioBuffer ++ inputData)
    obtain ⟨h1, h2, h3, h4⟩ := h
    rw [List.length_append] at h1 h2
    refine ⟨h1, h2, ?_, h3, h4, ?_⟩
    · rw [h2]
      exact Nat.mod_lt _ (by norm_num [samplesPerChunk])
    · simp
  have hspc : samplesPerChunk = 2400 := rfl
  refine ⟨gen, ?_, ?_, ?_, ?_⟩
  · have h := (gen [] (List.replicate 2400 (0:ℚ))).1
    rw [List.length_nil, List.length_replicate, hspc] at h
    norm_num at h
    exact h
  · have h := (gen [] (List.replicate 2400 (0:ℚ))).2.1
    rw [List.length_nil, List.length_replicate, hspc] at h
    norm_num at h
    exact h
  · have h := (gen [] (List.replicate 5000 (0:ℚ))).1
    rw [List.length_nil, List.length_replicate, hspc] at h
    norm_num at h
    exact h
  · have h := (gen [] (List.replicate 5000 (0:ℚ))).2.1
    rw [List.length_nil, List.length_replicate, hspc] at h
    norm_num at h
    exact h

/-- C9: the image-send completion handler mutates nothing on failure, and on
success adds exactly `calculateImageTokens w h` image tokens and records the
send time. -/
theorem imageTokens_only_on_success (st : SessionState) (now : Int) (w h : Nat) :
    imageSendResult st now w h false = st
    ∧ (imageSendResult st now w h true).tokenTracker
        = addTokens st.tokenTracker now (calculateImageTokens w h) TokKind.image
    ∧ (imageSendResult st now w h true).lastScreenshotSentTime = now := by
  refine ⟨rfl, rfl, rfl⟩

/-- Trimming a character list yields the empty list exactly when every
character is whitespace. -/
lemma trimChars_eq_nil_iff (l : List Char) :
    trimChars l = [] ↔ l.all jsIsWhitespace = true := by
  rw [trimChars, List.reverse_eq_nil_iff, List.dropWhile_eq_nil_iff, List.all_eq_true]
  constructor
  · intro h x hx
    have hsplit := List.takeWhile_append_dropWhile jsIsWhitespace l
    rw [← hsplit] at hx
    rcases List.mem_append.mp hx with h2 | h2
    · exact List.mem_takeWhile_imp h2
    · exact h x (List.mem_reverse.mpr h2)
  · intro h x hx
    have hx' := List.mem_reverse.mp hx
    have hsub : (l.dropWhile jsIsWhitespace).Sublist l := List.dropWhile_sublist _
    exact h x (hsub.subset hx')

/-- C10: `sendTextMessage` rejects empty or whitespace-only text locally —
returning `{success: false, error: 'Empty message'}` with no collaborator
invocation — and invokes the collaborator exactly for text with some
non-whitespace character. -/
theorem sendTextMessage_spec (text : String) (linkSuccess : Bool)
    (linkError : Option String) :
    (text.data.all jsIsWhitespace = true →
        sendTextMessage text linkSuccess linkError = ⟨false, some ("Empty message"), false⟩)
    ∧ (text.data.all jsIsWhitespace = false →
        sendTextMessage text linkSuccess linkError = ⟨linkSuccess, linkError, true⟩) := by
  constructor
  · intro h
    have hnil : trimChars text.data = [] := (trimChars_eq_nil_iff text.data).mpr h
    simp [sendTextMessage, jsTrim, String.length, hnil]
  · intro h
    have hne : ¬ trimChars text.data = [] := by
      intro hc
      rw [(trimChars_eq_nil_iff text.data).mp hc] at h
      cases h
    simp [sendTextMessage, jsTrim, String.length, hne]

/-- Witness for C10: a whitespace-only message is rejected without invocation,
a real message is forwarded. -/
theorem sendTextMessage_spec_witness :
    sendTextMessage (" ") true none = ⟨false, some ("Empty message"), false⟩
    ∧ sendTextMessage ("hi") true none = ⟨true, none, true⟩ :=
  ⟨(sendTextMessage_spec (" ") true none).1 (by decide),
   (sendTextMessage_spec ("hi") true none).2 (by decide)⟩

/-- A `captureScreenshot` call entered with a null diff baseline leaves the
baseline null (the only assignment to it sits inside the non-null branch) and
cannot end in a diff-ratio or min-interval skip. -/
lemma captureScreenshot_preserves (st : SessionState) (cfg : ThrottleConfig) (now : Int)
    (hasStream videoReady : Bool) (frame : List Px) (isManual : Bool)
    (h : st.lastSentDiffData = none) :
    (captureScreenshot st cfg now hasStream videoReady frame isManual).2.lastSentDiffData
        = none
    ∧ (captureScreenshot st cfg now hasStream videoReady frame isManual).1
        ≠ CaptureOutcome.skipDiff
    ∧ (captureScreenshot st cfg now hasStream videoReady frame isManual).1
        ≠ CaptureOutcome.skipMinInterval := by
  simp only [captureScreenshot, h]
  split_ifs <;> simp_all

/-- One session event entered with a null diff baseline keeps it null, and any
capture outcome it reports is neither a diff-ratio nor a min-interval skip. -/
lemma sessionStep_preserves (st : SessionState) (e : SessionEvent)
    (h : st.lastSentDiffData = none) :
    (sessionStep st e).1.lastSentDiffData = none
    ∧ ∀ o, (sessionStep st e).2 = some o →
        o ≠ CaptureOutcome.skipDiff ∧ o ≠ CaptureOutcome.skipMinInterval := by
  cases e with
  | capture cfg now hasStream videoReady frame isManual =>
    have hc := captureScreenshot_preserves st cfg now hasStream videoReady frame isManual h
    refine ⟨hc.1, ?_⟩
    intro o ho
    simp only [sessionStep] at ho
    obtain rfl := Option.some.inj ho
    exact ⟨hc.2.1, hc.2.2⟩
  | sendResult now w hh success =>
    refine ⟨?_, ?_⟩
    · simp only [sessionStep, imageSendResult]
      split <;> simp [h]
    · intro o ho
      simp [sessionStep] at ho

/-- C2: `lastSentDiffData` is assigned only inside the branch requiring it to
already be non-null, so a session that starts with a null baseline keeps it
null through every capture and send-completion event, and no automated frame
of such a session is ever suppressed by the change-ratio gate or the
minimum-send-interval gate. -/
theorem automated_frames_never_gated (st : SessionState) (evs : List SessionEvent)
    (h : st.lastSentDiffData = none) :
    (runSession st evs).1.lastSentDiffData = none
    ∧ ∀ o ∈ (runSession st evs).2,
        o ≠ CaptureOutcome.skipDiff ∧ o ≠ CaptureOutcome.skipMinInterval := by
  induction evs generalizing st with
  | nil =>
    exact ⟨h, by intro o ho; simp [runSession] at ho⟩
  | cons e rest ih =>
    have hstep := sessionStep_preserves st e h
    have hrest := ih (sessionStep st e).1 hstep.1
    refine ⟨hrest.1, ?_⟩
    intro o ho
    simp only [runSession, List.mem_append] at ho
    rcases ho with ho | ho
    · exact hstep.2 o (by simpa using ho)
    · exact hrest.2 o ho

/-- Witness for C2: starting from the initial renderer state, two automated
captures and a successful send leave the baseline null. -/
theorem automated_frames_never_gated_witness :
    (runSession initialSessionState
        [SessionEvent.capture ⟨false, 1000000, 75⟩ 1000 true true [⟨0, 0, 0, 255⟩] false,
         SessionEvent.sendResult 1100 1920 1080 true,
         SessionEvent.capture ⟨false, 1000000, 75⟩ 2000 true true [⟨255, 255, 255, 255⟩] false]
      ).1.lastSentDiffData = none :=
  (automated_frames_never_gated initialSessionState _ rfl).1
